import Mathlib

/-!
Verification of the hospital-admissions forecasting pipeline (`src/app.py`).

The development shallow-embeds the core pipeline of `app.py`:
`load_and_prepare_data` (admission records → monthly occupancy series),
`forecast_sarima` (error handling around the SARIMAX fit),
the bed-occupancy alert loop of `main` (capacity evaluation), and
the material-consumption block of `main` (resource planning).

Real-valued quantities (forecast values, stay lengths after
`pd.to_numeric`) are embedded as exact rationals; calendar dates are
embedded as absolute day numbers counted from 2021-01-01, the first day
relevant to the data set (`Admissions Hospitalières Nettoyées 2021-2025.csv`).
-/

/-- Decidable equality of `Except` results, so that concrete runs of the
fallible pipeline stages can be checked by `decide`. -/
instance {ε α : Type} [DecidableEq ε] [DecidableEq α] : DecidableEq (Except ε α) := fun a b =>
  match a, b with
  | .ok x, .ok y =>
    if h : x = y then .isTrue (by rw [h]) else .isFalse (fun hc => h (Except.ok.inj hc))
  | .ok _, .error _ => .isFalse (fun hc => Except.noConfusion hc)
  | .error _, .ok _ => .isFalse (fun hc => Except.noConfusion hc)
  | .error x, .error y =>
    if h : x = y then .isTrue (by rw [h]) else .isFalse (fun hc => h (Except.error.inj hc))

namespace HospApp

/-- Python `int(x)` applied to an exact rational: truncation toward zero
(`Int.tdiv` of the reduced numerator by the denominator). -/
def pyInt (q : ℚ) : ℤ := Int.tdiv q.num (q.den : ℤ)

/-! ## ResourcePlanner: the material-consumption block of `main` (app.py lines 148-152) -/

/-- Output of the material-consumption block of `main`. -/
structure ResourceTotals where
  infirmiers : ℤ
  gants : ℤ
  compresses : ℤ
  seringues : ℤ
deriving DecidableEq

/-- The material-consumption block of `main` (app.py lines 148-152):

    total_infirmiers = int(infirmiers * forecast.sum())
    total_gants = total_infirmiers * gants
    total_compresses = int(forecast.sum() * compresses)
    total_seringues = int(forecast.sum() * seringues)

`forecastSum` is `forecast.sum()`; the four ratio arguments are the
operator-entered preferences (positive integers in the UI). Python `int`
on a float truncates toward zero, embedded as `pyInt`. -/
def planTotals (forecastSum : ℚ) (infirmiers gants compresses seringues : ℤ) :
    ResourceTotals :=
  let total_infirmiers := pyInt ((infirmiers : ℚ) * forecastSum)
  { infirmiers := total_infirmiers
    gants := total_infirmiers * gants
    compresses := pyInt (forecastSum * (compresses : ℚ))
    seringues := pyInt (forecastSum * (seringues : ℚ)) }

/-! ## CapacityEvaluator: the bed-occupancy alert loop of `main` (app.py lines 121-132) -/

/-- Whether one forecast value triggers the occupancy alert.  The source
compares `(pred / lits_disponibles) * 100 >= 90`; the alert level `90` is
the threshold fraction (0.90 in the source) times 100, kept as the
parameter `threshold`.  When `capacity = 0` the Python code divides a
NumPy float by zero, which does not raise: it yields `+inf` for a
positive numerator (which compares `>= 90` as true), `-inf` for a
negative one and `nan` for zero (both comparing as false). -/
def breaches (capacity threshold pred : ℚ) : Bool :=
  if capacity = 0 then decide (0 < pred)
  else decide (pred / capacity * 100 ≥ threshold * 100)

/-- The scan of the alert loop in `main` (app.py lines 124-129): iterate
over the forecast in order and stop at the first value whose occupancy
rate meets the alert level, returning its 0-based index. -/
def firstBreachIdx (capacity threshold : ℚ) : List ℚ → Option ℕ
  | [] => none
  | p :: rest =>
    if breaches capacity threshold p then some 0
    else (firstBreachIdx capacity threshold rest).map (· + 1)

/-- Verdict of the alert loop: `crise` flag plus the month index shown in
the warning (the source displays `i + 1`, i.e. the 0-based index `i`). -/
structure CapacityVerdict where
  breach : Bool
  first_breach_index : Option ℕ
deriving DecidableEq

/-- The bed-occupancy alert loop of `main` (app.py lines 121-132) as a
function of the forecast vector, the capacity and the threshold. -/
def evaluate (forecast : List ℚ) (capacity threshold : ℚ) : CapacityVerdict :=
  match firstBreachIdx capacity threshold forecast with
  | some i => { breach := true, first_breach_index := some i }
  | none => { breach := false, first_breach_index := none }

/-- Errors the pipeline could surface.  `invalidCapacity` is the
precondition violation named by the design document; `dateRangeNaT` is
the `ValueError` raised by `pd.date_range` when its start is `NaT`;
`outOfBoundsDatetime` is the error raised by `pd.date_range` when
`periods` is negative (the uint64 overflow guard of
`_generate_range_overflow_safe` — `OutOfBoundsDatetime`, or
`OverflowError` under numpy ≥ 2); `keyErrorMois` is the `KeyError`
raised by `groupby('mois')` on a zero-row frame with no columns. -/
inductive AppError where
  | invalidCapacity
  | dateRangeNaT
  | outOfBoundsDatetime
  | keyErrorMois
deriving DecidableEq

/-- The alert loop with its possible exceptions made explicit.  The body
of the loop contains no validation and no operation that can raise (NumPy
float division by zero warns and yields `inf`/`nan`), so every call
returns a verdict. -/
def evaluateExc (forecast : List ℚ) (capacity threshold : ℚ) :
    Except AppError CapacityVerdict :=
  .ok (evaluate forecast capacity threshold)

/-! ## ForecastEngine: `forecast_sarima` (app.py lines 44-55)

The SARIMAX model itself lives in statsmodels, outside this repository;
what `app.py` contributes is the error-handling wrapper.  `FitOutcome`
is the outcome of the external fit-and-forecast computation: either a
predicted-mean vector or an exception with its message. -/

/-- Outcome of the external statsmodels fit: the predicted-mean vector on
success, or the exception raised by `SARIMAX(...)`, `fit()` or
`get_forecast(...)` (insufficient history, optimizer non-convergence,
and so on). -/
inductive FitOutcome where
  | ok (forecast : List ℚ)
  | fitFailure (msg : String)
deriving DecidableEq

/-- Observable result of one call to `forecast_sarima`: the returned
forecast (`None` on failure), whether `st.error` displayed a message,
and whether an exception propagated to the caller. -/
structure SarimaResult where
  forecast : Option (List ℚ)
  errorShown : Bool
  raised : Bool
deriving DecidableEq

/-- `forecast_sarima` (app.py lines 44-55): the whole body runs inside
`try/except Exception`; on success the forecast is returned, on any
exception the handler calls `st.error(...)` and returns `(None, None)`.
No exception ever leaves the function, so `raised` is false on both
branches. -/
def forecast_sarima (fit : FitOutcome) : SarimaResult :=
  match fit with
  | .ok f => { forecast := some f, errorShown := false, raised := false }
  | .fitFailure _ => { forecast := none, errorShown := true, raised := false }

/-- The bed-occupancy column of `main` (app.py lines 123-132): the alert
loop runs only under `if forecast is not None`, so a failed forecast
produces no verdict. -/
def crisisBlock (r : SarimaResult) (capacity threshold : ℚ) :
    Option CapacityVerdict :=
  r.forecast.map (fun f => evaluate f capacity threshold)

/-- The material-consumption column of `main` (app.py lines 148-152):
the totals are computed only under `if forecast is not None`. -/
def materialBlock (r : SarimaResult) (infirmiers gants compresses seringues : ℤ) :
    Option ResourceTotals :=
  r.forecast.map (fun f => planTotals f.sum infirmiers gants compresses seringues)

/-! ## Calendar

Dates are absolute day numbers with day 0 = 2021-01-01 (the first day of
the data set); months are indexed from month 0 = January 2021. -/

/-- Gregorian leap-year rule. -/
def isLeap (y : ℕ) : Bool := (y % 4 == 0 && y % 100 != 0) || (y % 400 == 0)

/-- Number of days of month `m` (1-based) of year `y`. -/
def daysInMonth (y m : ℕ) : ℕ :=
  if m = 2 then (if isLeap y then 29 else 28)
  else if m = 4 ∨ m = 6 ∨ m = 9 ∨ m = 11 then 30
  else 31

/-- First year relevant to the data set. -/
def epochYear : ℕ := 2021

/-- Length in days of month number `k` (month 0 = January 2021). -/
def monthLen (k : ℕ) : ℕ := daysInMonth (epochYear + k / 12) (k % 12 + 1)

/-- Absolute day number of the first day of month `k`. -/
def monthStart : ℕ → ℕ
  | 0 => 0
  | k + 1 => monthStart k + monthLen k

/-- Absolute day number of the last day of month `k` — the day carried by
the `'ME'` (month-end) index that `resample` produces. -/
def monthEnd (k : ℕ) : ℕ := monthStart (k + 1) - 1

/-- Absolute day number of the calendar date `y-m-d` (`m` and `d`
1-based), for dates from 2021-01-01 on. -/
def dayOfDate (y m d : ℕ) : ℕ := monthStart ((y - epochYear) * 12 + (m - 1)) + (d - 1)

/-- Fuel-driven scan locating the month containing a day: starting from
month `k`, subtract month lengths until the remaining offset `d` falls
inside the current month.  The fuel only bounds the recursion; any fuel
above `d` gives the month (each month is at least 28 days long). -/
def monthOfAux : ℕ → ℕ → ℕ → ℕ
  | 0, _, k => k
  | fuel + 1, d, k => if d < monthLen k then k else monthOfAux fuel (d - monthLen k) (k + 1)

/-- Month number containing absolute day `d`. -/
def monthOf (d : ℕ) : ℕ := monthOfAux (d + 1) d 0

/-! ## TimeSeriesBuilder: `load_and_prepare_data` (app.py lines 14-41)

A raw CSV row after the two pandas coercions of lines 22-23:
`entry` is the parsed entry date (`none` for `NaT`, i.e. an unparseable
date) and `stay` the parsed stay length (`none` for `NaN`, i.e. a
non-numeric value, which `fillna(0)` then maps to 0). -/

/-- A record of the admissions CSV after column selection and coercion. -/
structure RawRow where
  entry : Option ℕ
  stay : Option ℚ
deriving DecidableEq

/-- Stay length after `.fillna(0)` (app.py line 23). -/
def stayValue (r : RawRow) : ℚ := r.stay.getD 0

/-- Stay length after `int(row[...])` (app.py line 28): truncation toward
zero of the coerced value. -/
def stayDays (r : RawRow) : ℤ := pyInt (stayValue r)

/-- Day enumeration for one record (app.py line 29):
`pd.date_range(start=start_date, periods=duration, freq='D')` yields the
`duration` consecutive days from the entry date — empty when `duration`
is zero — but raises `ValueError` ("Neither start nor end can be NaT")
when the entry date is `NaT`, and raises on a negative `duration`
(`OutOfBoundsDatetime`/`OverflowError` from the uint64 overflow guard in
pandas ≥ 2.2, which this repository's `resample('ME')` spelling
requires). -/
def rowDays (r : RawRow) : Except AppError (List ℕ) :=
  match r.entry with
  | none => .error .dateRangeNaT
  | some d =>
    if stayDays r < 0 then .error .outOfBoundsDatetime
    else .ok ((List.range (stayDays r).toNat).map (d + ·))

/-- The row loop of app.py lines 25-32: every row is visited in order and
its enumerated days are appended to `nombre_patients_par_mois` (one
contribution, `patients = 1`, per day). -/
def allDays : List RawRow → Except AppError (List ℕ)
  | [] => .ok []
  | r :: rs =>
    match rowDays r with
    | .error e => .error e
    | .ok ds =>
      match allDays rs with
      | .error e => .error e
      | .ok rest => .ok (ds ++ rest)

/-- Smallest element of a nonempty day list (the minimum of the
`groupby('mois')` index); 0 on the empty list, where it is never used. -/
def listMin : List ℕ → ℕ
  | [] => 0
  | d :: ds => ds.foldl min d

/-- Largest element of a nonempty day list; 0 on the empty list. -/
def listMax : List ℕ → ℕ
  | [] => 0
  | d :: ds => ds.foldl max d

/-- The month grid of `resample('ME')`: every month from the month of the
earliest contributed day to the month of the latest one, inclusive. -/
def monthGrid (days : List ℕ) : List ℕ :=
  (List.range (monthOf (listMax days) + 1 - monthOf (listMin days))).map
    (monthOf (listMin days) + ·)

/-- The monthly aggregation of app.py lines 34-36: `groupby('mois').sum()`
followed by `resample('ME').sum()` — one row per grid month, whose value
is the number of daily contributions falling in that month (0 for months
with no contribution). -/
def monthlyCounts (days : List ℕ) : List (ℕ × ℕ) :=
  (monthGrid days).map (fun k => (k, days.countP (fun d => monthOf d = k)))

/-- `load_and_prepare_data` (app.py lines 14-41) from the coerced rows
and the current date `today` (line 38).  An empty contribution list makes
`pd.DataFrame([])` a zero-row frame with no columns, so
`groupby('mois')` raises `KeyError: 'mois'`.  Otherwise the monthly
aggregation is filtered by `index.date <= today` (line 39), where the
index carries month-end dates. -/
def load_and_prepare_data (rows : List RawRow) (today : ℕ) :
    Except AppError (List (ℕ × ℕ)) :=
  match allDays rows with
  | .error e => .error e
  | .ok days =>
    if days = [] then .error .keyErrorMois
    else .ok ((monthlyCounts days).filter (fun p => monthEnd p.1 ≤ today))

/-- The monthly aggregation before the truncation of app.py line 39, used
to speak about which months the truncation drops. -/
def untruncatedSeries (rows : List RawRow) : Except AppError (List (ℕ × ℕ)) :=
  match allDays rows with
  | .error e => .error e
  | .ok days =>
    if days = [] then .error .keyErrorMois
    else .ok (monthlyCounts days)

/-! ## Arithmetic lemmas about `pyInt` -/

theorem pyInt_natCast (n : ℕ) : pyInt (n : ℚ) = n := by
  simp [pyInt, Rat.num_natCast, Rat.den_natCast, Int.tdiv_one]

theorem pyInt_eq_floor_of_nonneg {q : ℚ} (h : 0 ≤ q) : pyInt q = ⌊q⌋ := by
  rw [pyInt, Rat.floor_def, Int.tdiv_eq_ediv (Rat.num_nonneg.2 h) (Int.natCast_nonneg q.den)]

theorem pyInt_nonneg {q : ℚ} (h : 0 ≤ q) : 0 ≤ pyInt q :=
  Int.tdiv_nonneg (Rat.num_nonneg.2 h) (Int.natCast_nonneg q.den)

theorem pyInt_nonpos {q : ℚ} (h : q ≤ 0) : pyInt q ≤ 0 := by
  have hn : q.num ≤ 0 := Rat.num_nonpos.2 h
  have hrw : pyInt q = -((-q.num).tdiv (q.den : ℤ)) := by
    rw [pyInt, ← neg_neg q.num, Int.neg_tdiv, neg_neg]
  have hpos := Int.tdiv_nonneg (by omega : (0:ℤ) ≤ -q.num) (Int.natCast_nonneg q.den)
  omega

/-! ## Characterization of the alert-loop scan -/

theorem evaluate_eq (f : List ℚ) (c t : ℚ) :
    evaluate f c t = ⟨(firstBreachIdx c t f).isSome, firstBreachIdx c t f⟩ := by
  unfold evaluate
  cases firstBreachIdx c t f <;> rfl

theorem breaches_of_pos {c t p : ℚ} (hc : 0 < c) :
    breaches c t p = true ↔ t ≤ p / c := by
  rw [breaches, if_neg (ne_of_gt hc), decide_eq_true_iff, ge_iff_le]
  exact mul_le_mul_right (by norm_num : (0:ℚ) < 100)

theorem firstBreachIdx_eq_some_iff (c t : ℚ) (f : List ℚ) (i : ℕ) :
    firstBreachIdx c t f = some i ↔
      (∃ p, f.get? i = some p ∧ breaches c t p = true) ∧
        ∀ j, j < i → ∀ q, f.get? j = some q → breaches c t q = false := by
  induction f generalizing i with
  | nil => simp [firstBreachIdx]
  | cons p rest ih =>
    by_cases hp : breaches c t p
    · simp only [firstBreachIdx, hp, if_pos]
      constructor
      · rintro h
        cases h
        refine ⟨⟨p, rfl, hp⟩, ?_⟩
        intro j hj q
        omega
      · rintro ⟨⟨q, hq, hbq⟩, hmin⟩
        cases i with
        | zero => rfl
        | succ i =>
          exact absurd hp (by simpa using hmin 0 (Nat.succ_pos i) p rfl)
    · simp only [firstBreachIdx, hp, if_neg, Bool.false_eq_true, not_false_iff]
      cases i with
      | zero =>
        simp only [Option.map_eq_some']
        constructor
        · rintro ⟨a, _, h⟩; omega
        · rintro ⟨⟨q, hq, hbq⟩, _⟩
          simp only [List.get?] at hq
          cases hq
          exact absurd hbq (by simp [hp])
      | succ i =>
        simp only [Option.map_eq_some']
        constructor
        · rintro ⟨a, ha, haa⟩
          have : a = i := by omega
          subst this
          rw [ih] at ha
          refine ⟨ha.1, ?_⟩
          rintro (_ | j) hj q hq
          · simp only [List.get?] at hq; cases hq; simpa using hp
          · exact ha.2 j (by omega) q hq
        · rintro ⟨⟨q, hq, hbq⟩, hmin⟩
          refine ⟨i, ?_, rfl⟩
          rw [ih]
          exact ⟨⟨q, hq, hbq⟩, fun j hj r hr => hmin (j+1) (by omega) r hr⟩

theorem firstBreachIdx_eq_none_iff (c t : ℚ) (f : List ℚ) :
    firstBreachIdx c t f = none ↔ ∀ p ∈ f, breaches c t p = false := by
  induction f with
  | nil => simp [firstBreachIdx]
  | cons p rest ih =>
    by_cases hp : breaches c t p
    · simp [firstBreachIdx, hp]
    · simp [firstBreachIdx, hp, Option.map_eq_none', ih]

/-! ## Calendar lemmas -/

theorem monthLen_pos (k : ℕ) : 0 < monthLen k := by
  unfold monthLen daysInMonth
  split_ifs <;> norm_num

theorem monthStart_succ (k : ℕ) : monthStart (k + 1) = monthStart k + monthLen k := rfl

theorem monthStart_strictMono : StrictMono monthStart := by
  apply strictMono_nat_of_lt_succ
  intro k
  have := monthLen_pos k
  rw [monthStart_succ]
  omega

theorem monthEnd_le_monthEnd {k l : ℕ} (h : k ≤ l) : monthEnd k ≤ monthEnd l := by
  unfold monthEnd
  have := monthStart_strictMono.monotone (show k + 1 ≤ l + 1 by omega)
  omega

theorem monthOfAux_spec :
    ∀ fuel d k, d < fuel →
      k ≤ monthOfAux fuel d k ∧
        monthStart (monthOfAux fuel d k) ≤ monthStart k + d ∧
        monthStart k + d < monthStart (monthOfAux fuel d k + 1) := by
  intro fuel
  induction fuel with
  | zero => intro d k h; omega
  | succ fuel ih =>
    intro d k h
    by_cases hd : d < monthLen k
    · simp only [monthOfAux, if_pos hd]
      refine ⟨le_rfl, Nat.le_add_right _ _, ?_⟩
      rw [monthStart_succ]
      omega
    · simp only [monthOfAux, if_neg hd]
      have hlen := monthLen_pos k
      obtain ⟨h1, h2, h3⟩ := ih (d - monthLen k) (k + 1) (by omega)
      rw [monthStart_succ] at h2 h3
      refine ⟨by omega, by omega, by omega⟩

theorem monthOf_spec (d : ℕ) :
    monthStart (monthOf d) ≤ d ∧ d < monthStart (monthOf d + 1) := by
  obtain ⟨-, h2, h3⟩ := monthOfAux_spec (d + 1) d 0 (Nat.lt_succ_self d)
  have h0 : monthStart 0 = 0 := rfl
  rw [h0] at h2 h3
  exact ⟨by simpa [monthOf] using h2, by simpa [monthOf] using h3⟩

theorem le_monthEnd_monthOf (d : ℕ) : d ≤ monthEnd (monthOf d) := by
  obtain ⟨-, h⟩ := monthOf_spec d
  unfold monthEnd
  omega

/-! ## Structure of the monthly aggregation -/

theorem mem_range_map_add {a n k : ℕ} :
    k ∈ (List.range n).map (a + ·) ↔ a ≤ k ∧ k < a + n := by
  simp only [List.mem_map, List.mem_range]
  constructor
  · rintro ⟨j, hj, rfl⟩; omega
  · rintro ⟨h1, h2⟩; exact ⟨k - a, by omega, by omega⟩

theorem mem_monthGrid {days : List ℕ} {k : ℕ} :
    k ∈ monthGrid days ↔
      monthOf (listMin days) ≤ k ∧
        k < monthOf (listMin days) + (monthOf (listMax days) + 1 - monthOf (listMin days)) := by
  unfold monthGrid
  exact mem_range_map_add

theorem monthGrid_pairwise (days : List ℕ) : (monthGrid days).Pairwise (· < ·) := by
  unfold monthGrid
  exact List.Pairwise.map _ (fun a b h => by omega) (List.pairwise_lt_range _)

theorem monthlyCounts_pairwise (days : List ℕ) :
    (monthlyCounts days).Pairwise (fun p q => p.1 < q.1) := by
  unfold monthlyCounts
  exact List.Pairwise.map _ (fun a b h => h) (monthGrid_pairwise days)

theorem mem_monthlyCounts {days : List ℕ} {p : ℕ × ℕ} :
    p ∈ monthlyCounts days ↔
      p.1 ∈ monthGrid days ∧ p.2 = days.countP (fun d => monthOf d = p.1) := by
  obtain ⟨a, b⟩ := p
  unfold monthlyCounts
  simp only [List.mem_map, Prod.mk.injEq]
  constructor
  · rintro ⟨k, hk, rfl, rfl⟩; exact ⟨hk, rfl⟩
  · rintro ⟨h1, h2⟩; exact ⟨a, h1, rfl, h2.symm⟩

theorem load_ok_iff {rows : List RawRow} {today : ℕ} {s : List (ℕ × ℕ)} :
    load_and_prepare_data rows today = .ok s ↔
      ∃ days, allDays rows = .ok days ∧ days ≠ [] ∧
        s = (monthlyCounts days).filter (fun p => monthEnd p.1 ≤ today) := by
  cases h : allDays rows with
  | error e => simp [load_and_prepare_data, h]
  | ok days =>
    by_cases hd : days = []
    · subst hd
      simp [load_and_prepare_data, h]
    · simp [load_and_prepare_data, h, hd, eq_comm]

theorem untruncated_ok_iff {rows : List RawRow} {u : List (ℕ × ℕ)} :
    untruncatedSeries rows = .ok u ↔
      ∃ days, allDays rows = .ok days ∧ days ≠ [] ∧ u = monthlyCounts days := by
  cases h : allDays rows with
  | error e => simp [untruncatedSeries, h]
  | ok days =>
    by_cases hd : days = []
    · subst hd
      simp [untruncatedSeries, h]
    · simp [untruncatedSeries, h, hd, eq_comm]

/-! ## Claim theorems -/

/-- C1: for every forecast vector, positive capacity and threshold fraction in
(0,1], the alert loop reports breach = true together with the chronologically
first 0-based index whose predicted value over capacity meets or exceeds the
threshold (every earlier index staying strictly below it), and reports
breach = false with no index when no month meets it; concretely, on forecast
[50,95,60] with capacity 100 and threshold 0.90 it reports breach at index 1. -/
theorem claim_C1 (f : List ℚ) (c t : ℚ) (hc : 0 < c) (ht : 0 < t) (ht1 : t ≤ 1) :
    (∀ i : ℕ,
      ((evaluate f c t).breach = true ∧ (evaluate f c t).first_breach_index = some i) ↔
        ((∃ p, f.get? i = some p ∧ t ≤ p / c) ∧
          ∀ j, j < i → ∀ q, f.get? j = some q → q / c < t)) ∧
    (((evaluate f c t).breach = false ∧ (evaluate f c t).first_breach_index = none) ↔
      ∀ p ∈ f, p / c < t) ∧
    evaluate [50, 95, 60] 100 (9 / 10) = ⟨true, some 1⟩ := by
  have hbr : ∀ p : ℚ, breaches c t p = true ↔ t ≤ p / c := fun p => breaches_of_pos hc
  have hbrf : ∀ p : ℚ, breaches c t p = false ↔ p / c < t := by
    intro p
    rw [← not_le, ← hbr p, ← Bool.not_eq_true]
  refine ⟨?_, ?_, ?_⟩
  · intro i
    rw [evaluate_eq]
    constructor
    · rintro ⟨-, hfbi⟩
      simp only at hfbi
      rw [firstBreachIdx_eq_some_iff] at hfbi
      obtain ⟨⟨p, hp, hbp⟩, hmin⟩ := hfbi
      exact ⟨⟨p, hp, (hbr p).1 hbp⟩, fun j hj q hq => (hbrf q).1 (hmin j hj q hq)⟩
    · rintro ⟨⟨p, hp, hle⟩, hmin⟩
      have hsome : firstBreachIdx c t f = some i := by
        rw [firstBreachIdx_eq_some_iff]
        exact ⟨⟨p, hp, (hbr p).2 hle⟩, fun j hj q hq => (hbrf q).2 (hmin j hj q hq)⟩
      simp [hsome]
  · rw [evaluate_eq]
    cases hfb : firstBreachIdx c t f with
    | some i =>
      simp only [hfb]
      rw [firstBreachIdx_eq_some_iff] at hfb
      obtain ⟨⟨p, hp, hbp⟩, -⟩ := hfb
      have hpf : p ∈ f := List.get?_mem hp
      simp only [Option.isSome_some]
      constructor
      · rintro ⟨h, -⟩; exact absurd h (by simp)
      · intro hall
        exact absurd ((hbrf p).2 (hall p hpf)) (by simp [hbp])
    | none =>
      rw [firstBreachIdx_eq_none_iff] at hfb
      simp only [Option.isSome_none]
      exact ⟨fun _ p hp => (hbrf p).1 (hfb p hp), fun _ => by simp⟩
  · norm_num [evaluate, firstBreachIdx, breaches]

/-- Witness for C1: the theorem applied to forecast [50,95,60], capacity 100
and threshold 0.90. -/
theorem claim_C1_witness : evaluate [50, 95, 60] 100 (9 / 10) = ⟨true, some 1⟩ :=
  (claim_C1 [50, 95, 60] 100 (9 / 10) (by norm_num) (by norm_num) (by norm_num)).2.2

/-- C2 counterexample: when the underlying fit fails, `forecast_sarima` does
not let the failure propagate — it returns `None` with an on-screen error and
`raised = false`, so the failure is absorbed, contradicting the claim that it
surfaces an error to the caller rather than absorbing it. -/
theorem claim_C2_counterexample :
    forecast_sarima (.fitFailure "optimizer failed to converge") =
      { forecast := none, errorShown := true, raised := false } ∧
    (forecast_sarima (.fitFailure "optimizer failed to converge")).raised = false :=
  ⟨rfl, rfl⟩

/-- C2 (amended): on any failure of the underlying fit (insufficient history,
optimizer non-convergence, or any other exception), `forecast_sarima` catches
the exception, displays an error message and returns `None`: no forecast value
is produced and the downstream capacity and material blocks are skipped, but
the failure is absorbed inside `forecast_sarima` rather than propagated — no
exception ever reaches the caller, on any input. -/
theorem claim_C2_amended (fit : FitOutcome) (msg : String) (capacity threshold : ℚ)
    (ninf ng nc ns : ℤ) :
    (forecast_sarima fit).raised = false ∧
    (forecast_sarima (.fitFailure msg)).forecast = none ∧
    (forecast_sarima (.fitFailure msg)).errorShown = true ∧
    crisisBlock (forecast_sarima (.fitFailure msg)) capacity threshold = none ∧
    materialBlock (forecast_sarima (.fitFailure msg)) ninf ng nc ns = none := by
  refine ⟨?_, rfl, rfl, rfl, rfl⟩
  cases fit <;> rfl

/-- C3 counterexample: with forecast sum -50 and ratios 2, 3, 2, 2 the planner
returns -100 nurses, -300 gloves, -100 compresses and -100 syringes — the sum
is not clamped to 0 and the totals are negative. -/
theorem claim_C3_counterexample :
    planTotals (-50) 2 3 2 2 =
      { infirmiers := -100, gants := -300, compresses := -100, seringues := -100 } ∧
    (planTotals (-50) 2 3 2 2).infirmiers < 0 := by
  constructor
  · norm_num [planTotals, pyInt]
  · norm_num [planTotals, pyInt]

/-- C3 (amended): the planner applies no clamp to the forecast sum.  Each
total is the toward-zero truncation of the corresponding product (gloves being
the nurse total times the ratio), so a non-positive sum yields non-positive —
not zero-floored — totals, and they are strictly negative as soon as the
product reaches -1, as the counterexample shows. -/
theorem claim_C3_amended (S : ℚ) (hS : S ≤ 0) (ninf ng nc ns : ℤ)
    (h1 : 0 < ninf) (h2 : 0 < ng) (h3 : 0 < nc) (h4 : 0 < ns) :
    (planTotals S ninf ng nc ns).infirmiers ≤ 0 ∧
    (planTotals S ninf ng nc ns).gants ≤ 0 ∧
    (planTotals S ninf ng nc ns).compresses ≤ 0 ∧
    (planTotals S ninf ng nc ns).seringues ≤ 0 := by
  have c1 : (0 : ℚ) ≤ (ninf : ℚ) := by exact_mod_cast h1.le
  have c3 : (0 : ℚ) ≤ (nc : ℚ) := by exact_mod_cast h3.le
  have c4 : (0 : ℚ) ≤ (ns : ℚ) := by exact_mod_cast h4.le
  have hi : pyInt ((ninf : ℚ) * S) ≤ 0 :=
    pyInt_nonpos (mul_nonpos_iff.mpr (Or.inl ⟨c1, hS⟩))
  refine ⟨hi, ?_, ?_, ?_⟩
  · exact mul_nonpos_iff.mpr (Or.inr ⟨hi, h2.le⟩)
  · exact pyInt_nonpos (mul_nonpos_iff.mpr (Or.inr ⟨hS, c3⟩))
  · exact pyInt_nonpos (mul_nonpos_iff.mpr (Or.inr ⟨hS, c4⟩))

/-- Witness for the amended C3 at forecast sum -50 and ratios 2, 3, 2, 2. -/
theorem claim_C3_witness :
    (planTotals (-50) 2 3 2 2).infirmiers ≤ 0 ∧
    (planTotals (-50) 2 3 2 2).gants ≤ 0 ∧
    (planTotals (-50) 2 3 2 2).compresses ≤ 0 ∧
    (planTotals (-50) 2 3 2 2).seringues ≤ 0 :=
  claim_C3_amended (-50) (by norm_num) 2 3 2 2 (by norm_num) (by norm_num)
    (by norm_num) (by norm_num)

/-- C6 counterexample: calling the alert loop with capacity 0 does not raise
`InvalidCapacityError` — there is no capacity validation in the code.  NumPy
float division by zero yields infinity, so the call returns a verdict, here a
breach at index 0 (50/0 = +inf ≥ the alert level). -/
theorem claim_C6_counterexample :
    evaluateExc [50, 95, 60] 0 (9 / 10) = .ok ⟨true, some 0⟩ ∧
    evaluateExc [50, 95, 60] 0 (9 / 10) ≠ .error .invalidCapacity := by
  constructor
  · norm_num [evaluateExc, evaluate, firstBreachIdx, breaches]
  · simp [evaluateExc]

/-- C6 (amended): the alert loop performs no capacity validation and never
raises; with capacity 0 it still returns a verdict, reporting a breach exactly
when some forecast value is positive (division by zero yields +inf for a
positive numerator).  Non-positive capacities are only prevented by the
`min_value=1` bound of the input widget, not by the evaluation code. -/
theorem claim_C6_amended (f : List ℚ) (c t : ℚ) :
    (∃ v, evaluateExc f c t = .ok v) ∧
    ((evaluate f 0 t).breach = true ↔ ∃ p ∈ f, 0 < p) := by
  refine ⟨⟨evaluate f c t, rfl⟩, ?_⟩
  have hb0 : ∀ p : ℚ, breaches 0 t p = true ↔ 0 < p := by
    intro p
    rw [breaches, if_pos rfl, decide_eq_true_iff]
  rw [evaluate_eq]
  cases hfb : firstBreachIdx 0 t f with
  | some i =>
    simp only [Option.isSome_some]
    rw [firstBreachIdx_eq_some_iff] at hfb
    obtain ⟨⟨p, hp, hbp⟩, -⟩ := hfb
    exact ⟨fun _ => ⟨p, List.get?_mem hp, (hb0 p).1 hbp⟩, fun _ => by simp⟩
  | none =>
    simp only [Option.isSome_none]
    rw [firstBreachIdx_eq_none_iff] at hfb
    constructor
    · intro h; exact absurd h (by simp)
    · rintro ⟨p, hpf, hpos⟩
      have := hfb p hpf
      rw [← Bool.not_eq_true, hb0 p] at this
      exact absurd hpos this

/-- C9: for a non-negative forecast sum S and positive integer ratios the
planner returns nurses = floor(nurses_per_patient × S), gloves = that nurse
total times gloves_per_nurse, compresses = floor(compresses_per_patient × S)
and syringes = floor(syringes_per_patient × S); with S = 100, nurse ratio 2
and glove ratio 3 it returns 200 nurses and 600 gloves. -/
theorem claim_C9 (S : ℚ) (hS : 0 ≤ S) (ninf ng nc ns : ℤ)
    (h1 : 0 < ninf) (h2 : 0 < ng) (h3 : 0 < nc) (h4 : 0 < ns) :
    planTotals S ninf ng nc ns =
      { infirmiers := ⌊(ninf : ℚ) * S⌋
        gants := ⌊(ninf : ℚ) * S⌋ * ng
        compresses := ⌊S * (nc : ℚ)⌋
        seringues := ⌊S * (ns : ℚ)⌋ } ∧
    planTotals 100 2 3 2 2 =
      { infirmiers := 200, gants := 600, compresses := 200, seringues := 200 } := by
  constructor
  · have c1 : (0 : ℚ) ≤ (ninf : ℚ) := by exact_mod_cast h1.le
    have c3 : (0 : ℚ) ≤ (nc : ℚ) := by exact_mod_cast h3.le
    have c4 : (0 : ℚ) ≤ (ns : ℚ) := by exact_mod_cast h4.le
    have e1 : pyInt ((ninf : ℚ) * S) = ⌊(ninf : ℚ) * S⌋ :=
      pyInt_eq_floor_of_nonneg (mul_nonneg c1 hS)
    have e2 : pyInt (S * (nc : ℚ)) = ⌊S * (nc : ℚ)⌋ :=
      pyInt_eq_floor_of_nonneg (mul_nonneg hS c3)
    have e3 : pyInt (S * (ns : ℚ)) = ⌊S * (ns : ℚ)⌋ :=
      pyInt_eq_floor_of_nonneg (mul_nonneg hS c4)
    unfold planTotals
    rw [e1, e2, e3]
  · norm_num [planTotals, pyInt]

/-- Witness for C9 at forecast sum 100 and ratios 2, 3, 2, 2. -/
theorem claim_C9_witness :
    planTotals 100 2 3 2 2 =
      { infirmiers := 200, gants := 600, compresses := 200, seringues := 200 } :=
  (claim_C9 100 (by norm_num) 2 3 2 2 (by norm_num) (by norm_num) (by norm_num)
    (by norm_num)).2

theorem allDays_ok_nil {rows : List RawRow}
    (h : ∀ r ∈ rows, r.entry ≠ none ∧ stayDays r = 0) : allDays rows = .ok [] := by
  induction rows with
  | nil => rfl
  | cons r rs ih =>
    obtain ⟨hent, hstay⟩ := h r (List.mem_cons_self r rs)
    cases hd : r.entry with
    | none => exact absurd hd hent
    | some d =>
      have hrow : rowDays r = .ok [] := by
        simp [rowDays, hd, hstay]
      have hrs := ih (fun x hx => h x (List.mem_cons_of_mem r hx))
      simp [allDays, hrow, hrs]

/-- C7: a record with a valid entry date and non-negative integer stay `n`
contributes exactly one occupancy unit to each of the `n` days of the
half-open interval [entry, entry + n) — the entry day included, the day
entry + n excluded, each day listed once; a record entering 2024-01-01 with
stay 3 contributes to 2024-01-01, 01-02 and 01-03 only, and a record with
stay 0 contributes to no day at all. -/
theorem claim_C7 (d n : ℕ) :
    (∃ ds, rowDays ⟨some d, some (n : ℚ)⟩ = .ok ds ∧ ds.Nodup ∧
      ∀ e, e ∈ ds ↔ d ≤ e ∧ e < d + n) ∧
    rowDays ⟨some (dayOfDate 2024 1 1), some 3⟩ =
      .ok [dayOfDate 2024 1 1, dayOfDate 2024 1 2, dayOfDate 2024 1 3] ∧
    rowDays ⟨some d, some 0⟩ = .ok [] := by
  refine ⟨?_, by decide, ?_⟩
  · have hs : stayDays ⟨some d, some (n : ℚ)⟩ = (n : ℤ) := by
      simp [stayDays, stayValue, pyInt_natCast]
    have hnn : ¬ ((n : ℤ) < 0) := Int.not_lt.mpr (Int.natCast_nonneg n)
    refine ⟨(List.range n).map (d + ·), ?_, ?_, fun e => mem_range_map_add⟩
    · simp [rowDays, hs, hnn]
    · exact List.Nodup.map (fun a b hab => by omega) (List.nodup_range n)
  · have hz : stayDays ⟨some d, some 0⟩ = 0 := by
      have h0 := pyInt_natCast 0
      simpa [stayDays, stayValue] using h0
    simp [rowDays, hz]

/-- C5: behaviour of the builder on the malformed records named by the spec.
A record whose entry date fails to parse is NOT discarded: the row loop
reaches `pd.date_range(start=NaT, ...)`, which raises a `ValueError`, so the
whole build fails instead of never raising.  A record with a negative stay
is NOT treated as 0 either: `pd.date_range(start, periods=-3)` raises
(`OutOfBoundsDatetime`/`OverflowError`), failing the build as well.  Both
contradict the documented coercion intent of `errors='coerce'`.  Only the
non-numeric-stay coercion holds: `fillna(0)` turns it into stay 0, which
enumerates no days. -/
theorem claim_C5 :
    HospApp.load_and_prepare_data [⟨none, some 5⟩] 100 = .error .dateRangeNaT ∧
    rowDays ⟨none, some 5⟩ = .error .dateRangeNaT ∧
    rowDays ⟨some 0, some (-3)⟩ = .error .outOfBoundsDatetime ∧
    HospApp.load_and_prepare_data [⟨some 0, some (-3)⟩] 100 = .error .outOfBoundsDatetime ∧
    rowDays ⟨some 0, none⟩ = .ok [] := by
  exact ⟨by decide, rfl, by decide, by decide, by decide⟩

/-- C4 counterexample: with one record entering day 0 (2021-01-01, stay 1)
and today = day 14 (2021-01-15), month 0 has a contribution and its
first-of-month date (day 0) is not after today, yet the truncated output is
empty — the builder does not exclude exactly the months whose start lies
strictly after the current date; it filters on the month-end index. -/
theorem claim_C4_counterexample :
    untruncatedSeries [⟨some 0, some 1⟩] = .ok [(0, 1)] ∧
    monthStart 0 ≤ 14 ∧
    HospApp.load_and_prepare_data [⟨some 0, some 1⟩] 14 = .ok [] := by
  exact ⟨by decide, by decide, by decide⟩

/-- C4 (amended): the truncation filters on the month-END dates carried by
the `resample('ME')` index: a month of the aggregation grid is retained
exactly when its last day is on or before the current date.  Consequently
every retained month ends no later than today, and the month containing
today — which always ends on or after today — is excluded whenever today is
not its last day. -/
theorem claim_C4_amended (rows : List RawRow) (today : ℕ) (s u : List (ℕ × ℕ))
    (hs : HospApp.load_and_prepare_data rows today = .ok s)
    (hu : untruncatedSeries rows = .ok u) :
    (∀ p ∈ s, monthEnd p.1 ≤ today) ∧
    (∀ p ∈ u, monthEnd p.1 ≤ today → p ∈ s) ∧
    (∀ p ∈ u, today < monthEnd p.1 → p ∉ s) ∧
    today ≤ monthEnd (monthOf today) ∧
    (today < monthEnd (monthOf today) → ∀ p ∈ s, p.1 ≠ monthOf today) := by
  obtain ⟨days, hd, hne, rfl⟩ := load_ok_iff.mp hs
  obtain ⟨days', hd', -, rfl⟩ := untruncated_ok_iff.mp hu
  rw [hd] at hd'
  cases Except.ok.inj hd'
  refine ⟨?_, ?_, ?_, le_monthEnd_monthOf today, ?_⟩
  · intro p hp
    simpa using (List.mem_filter.mp hp).2
  · intro p hp hle
    exact List.mem_filter.mpr ⟨hp, by simpa using hle⟩
  · intro p hp hgt hmem
    have h2 := (List.mem_filter.mp hmem).2
    simp only [decide_eq_true_eq] at h2
    omega
  · intro htod p hp hpk
    have h1 := (List.mem_filter.mp hp).2
    simp only [decide_eq_true_eq] at h1
    rw [hpk] at h1
    omega

/-- Witness for the amended C4: applied to one record entering day 30
(2021-01-31, stay 2) with today = day 100, where both retained months end
before today. -/
theorem claim_C4_witness : monthEnd 0 ≤ 100 :=
  (claim_C4_amended [⟨some 30, some 2⟩] 100 [(0, 1), (1, 1)] [(0, 1), (1, 1)]
    (by decide) (by decide)).1 (0, 1) (by simp)

/-- C8: whenever the builder succeeds, the resulting monthly series has
strictly increasing month keys (hence no duplicate months), contains every
calendar month lying between any two of its entries (months with zero
contributions appear, with value 0 — no gaps), and every value is
non-negative. -/
theorem claim_C8 (rows : List RawRow) (today : ℕ) (s : List (ℕ × ℕ))
    (hs : HospApp.load_and_prepare_data rows today = .ok s) :
    s.Pairwise (fun p q => p.1 < q.1) ∧
    (∀ p ∈ s, ∀ q ∈ s, ∀ k, p.1 ≤ k → k ≤ q.1 → ∃ v, (k, v) ∈ s) ∧
    (∀ p ∈ s, 0 ≤ p.2) := by
  obtain ⟨days, hd, hne, rfl⟩ := load_ok_iff.mp hs
  refine ⟨?_, ?_, fun p _ => Nat.zero_le _⟩
  · exact List.Pairwise.sublist (List.filter_sublist _) (monthlyCounts_pairwise days)
  · intro p hp q hq k hpk hkq
    have hp' := List.mem_filter.mp hp
    have hq' := List.mem_filter.mp hq
    have hpg := (mem_monthlyCounts.mp hp'.1).1
    have hqg := (mem_monthlyCounts.mp hq'.1).1
    rw [mem_monthGrid] at hpg hqg
    have hkg : k ∈ monthGrid days := mem_monthGrid.mpr ⟨by omega, by omega⟩
    refine ⟨days.countP (fun d => monthOf d = k), List.mem_filter.mpr ⟨?_, ?_⟩⟩
    · exact mem_monthlyCounts.mpr ⟨hkg, rfl⟩
    · have hq2 : monthEnd q.1 ≤ today := by simpa using hq'.2
      have hmk := monthEnd_le_monthEnd hkq
      show decide (monthEnd k ≤ today) = true
      exact decide_eq_true (by omega)

/-- Witness for C8: the series built from one record entering day 30
(2021-01-31, stay 2 — spanning the January/February 2021 boundary) has
strictly increasing month keys. -/
theorem claim_C8_witness :
    ([((0 : ℕ), (1 : ℕ)), ((1 : ℕ), (1 : ℕ))]).Pairwise (fun p q => p.1 < q.1) :=
  (claim_C8 [⟨some 30, some 2⟩] 100 [(0, 1), (1, 1)] (by decide)).1

/-- C10 counterexample: on an input whose records all have unparseable entry
dates, the build does fail, but not at the aggregation step the claim
describes: the failure is the `ValueError` raised by `pd.date_range` during
day enumeration, not the `KeyError` raised by `groupby('mois')`. -/
theorem claim_C10_counterexample :
    HospApp.load_and_prepare_data [⟨none, some 7⟩] 50 = .error .dateRangeNaT ∧
    AppError.dateRangeNaT ≠ AppError.keyErrorMois := by
  exact ⟨by decide, by decide⟩

/-- C10 (amended): the builder never returns an empty monthly series.  On an
empty record sequence, and on records that are all valid-dated with
enumerated stay 0 (so no daily contribution is produced), the aggregation
is applied to a frame with no rows and no 'mois' column and fails with
`KeyError`; when a record's entry date is unparseable, the build also
fails, but earlier — `pd.date_range` raises on the `NaT` start during
enumeration.  In every case an error is raised and no series is produced. -/
theorem claim_C10_amended (rows : List RawRow) (today : ℕ)
    (h : ∀ r ∈ rows, r.entry ≠ none ∧ stayDays r = 0) :
    HospApp.load_and_prepare_data [] today = .error .keyErrorMois ∧
    HospApp.load_and_prepare_data rows today = .error .keyErrorMois ∧
    ∀ r rest, r.entry = none →
      HospApp.load_and_prepare_data (r :: rest) today = .error .dateRangeNaT := by
  refine ⟨rfl, ?_, ?_⟩
  · simp [load_and_prepare_data, allDays_ok_nil h]
  · intro r rest hr
    have hrow : rowDays r = .error .dateRangeNaT := by simp [rowDays, hr]
    simp [load_and_prepare_data, allDays, hrow]

/-- Witness for the amended C10: a single valid-dated record with stay 0
makes the aggregation fail with the `KeyError`, and a single record with an
unparseable date makes the enumeration fail with the `ValueError`. -/
theorem claim_C10_witness :
    HospApp.load_and_prepare_data [⟨some 3, some 0⟩] 9 = .error .keyErrorMois ∧
    HospApp.load_and_prepare_data [⟨none, some 2⟩] 9 = .error .dateRangeNaT :=
  ⟨(claim_C10_amended [⟨some 3, some 0⟩] 9 (by decide)).2.1,
    (claim_C10_amended [] 9 (by simp)).2.2 ⟨none, some 2⟩ [] rfl⟩

end HospApp
